import Mathlib

set_option maxRecDepth 10000

/-!
Verification of the mafia-game server core (game engine and websocket
session handler) against its natural-language specification.  The
JavaScript source is shallowly embedded: every definition below mirrors a
function of the source (`game-engine.js`, `websocket-handler.js`); the JS
`Map` is embedded as an insertion-ordered association list whose `set`
updates in place (preserving the entry position) and appends new keys at
the end, exactly as JS `Map.set` does.
-/

namespace Mafia

/-- The six role strings used by `distributeRoles`. -/
inductive Role
  | don
  | mafia
  | doctor
  | lover1
  | lover2
  | citizen
deriving DecidableEq, Repr

/-- `game.phase` field: the source uses the strings "night" and "day". -/
inductive Phase
  | night
  | day
deriving DecidableEq, Repr

/-- An entry of `game.actions`: `{ action, target, timestamp }`. -/
structure ActionRec where
  verb : String
  target : Option String
  timestamp : Nat
deriving DecidableEq, Repr

/-- A player object inside `game.players` (only the fields the engine reads). -/
structure Player where
  nickname : String
  role : Role
  isAlive : Bool
deriving DecidableEq, Repr

/-- An entry of `game.gameLog` pushed by `handleAction`. -/
structure LogEntry where
  phase : Phase
  day : Nat
  player : String
  verb : String
  target : Option String
deriving DecidableEq, Repr

/-- The per-room game state created by `startGame`. -/
structure Game where
  phase : Phase
  day : Nat
  timeLeft : Int
  actions : List (String × ActionRec)
  players : List Player
  lastAction : Option String
  gameLog : List LogEntry
  votingResults : List (String × Nat)
deriving DecidableEq, Repr

/-- The room-level state the engine touches: `room.game`, `room.status`,
and the set of live `setInterval` handles created by `startPhaseTimer`
(each identified by its creation index; the source never clears an old
interval when a new one is started, it only clears an interval from
inside its own callback when the countdown reaches zero).  `dbWinner`
records the winner written to the database by `endGame`. -/
structure RoomState where
  game : Option Game
  status : String
  timers : List Nat
  nextTimer : Nat
  dbWinner : Option String
deriving DecidableEq, Repr

/-! ### Association lists embedding JS `Map` / plain objects -/

/-- `Map.get` / object read. -/
def lookupAssoc {κ α : Type} [DecidableEq κ] (l : List (κ × α)) (k : κ) :
    Option α :=
  match l with
  | [] => none
  | (k', v) :: t => if k' = k then some v else lookupAssoc t k

/-- `Map.set` / object write: update in place keeping the entry position,
append at the end when the key is new (JS `Map` iteration order). -/
def setAssoc {κ α : Type} [DecidableEq κ] (l : List (κ × α)) (k : κ) (v : α) :
    List (κ × α) :=
  match l with
  | [] => [(k, v)]
  | (k', v') :: t => if k' = k then (k', v) :: t else (k', v') :: setAssoc t k v

/-- `Map.delete`. -/
def eraseAssoc {κ α : Type} [DecidableEq κ] (l : List (κ × α)) (k : κ) :
    List (κ × α) :=
  match l with
  | [] => []
  | (k', v) :: t => if k' = k then t else (k', v) :: eraseAssoc t k

/-- `votes[t] = (votes[t] || 0) + 1` on a plain object. -/
def incAssoc (l : List (String × Nat)) (k : String) : List (String × Nat) :=
  match l with
  | [] => [(k, 1)]
  | (k', v) :: t => if k' = k then (k', v + 1) :: t else (k', v) :: incAssoc t k

/-- Read of a vote tally, with 0 for a missing key. -/
def lookupNat (l : List (String × Nat)) (k : String) : Nat :=
  match l with
  | [] => 0
  | (k', v) :: t => if k' = k then v else lookupNat t k

/-! ### Role distribution (`distributeRoles`) -/

/-- `room.roles` settings object `{ doctor, don, lovers }` (the `don`
flag exists in room configuration but is never read by the engine). -/
structure RoleSettings where
  doctor : Bool
  don : Bool
  lovers : Bool
deriving DecidableEq, Repr

/-- The role list built by `distributeRoles` before the final shuffle:
one don, mafia up to `⌊n/3⌋` total mafia-type, optional doctor (n ≥ 5),
optional lovers pair (n ≥ 6), citizens filling the remaining slots. -/
def rolesBeforeShuffle (playerCount : Nat) (rs : RoleSettings) : List Role :=
  let roles := [Role.don]
  let mafiaCount := playerCount / 3
  let roles := roles ++ List.replicate (mafiaCount - 1) Role.mafia
  let roles := if rs.doctor && decide (5 ≤ playerCount)
    then roles ++ [Role.doctor] else roles
  let roles := if rs.lovers && decide (6 ≤ playerCount)
    then roles ++ [Role.lover1, Role.lover2] else roles
  roles ++ List.replicate (playerCount - roles.length) Role.citizen

/-- The in-place swap `[roles[i], roles[j]] = [roles[j], roles[i]]`. -/
def swapList (l : List Role) (i j : Nat) : List Role :=
  let a := l.getD i Role.citizen
  let b := l.getD j Role.citizen
  (l.set i b).set j a

/-- The Fisher–Yates loop `for (i = len-1; i > 0; i--)`, the random draw
at step `i` being `rng i % (i+1)` (the source computes
`Math.floor(Math.random() * (i + 1))`, a value in `[0, i]`). -/
def fyAux (rng : Nat → Nat) : Nat → List Role → List Role
  | 0, l => l
  | i + 1, l => fyAux rng i (swapList l (i + 1) (rng (i + 1) % (i + 2)))

/-- `distributeRoles(players, roleSettings)`: build the quota list, then
shuffle it with Fisher–Yates driven by the random sequence `rng`. -/
def distributeRoles (players : List String) (rs : RoleSettings)
    (rng : Nat → Nat) : List Role :=
  let roles := rolesBeforeShuffle players.length rs
  fyAux rng (roles.length - 1) roles

/-! ### Permutation facts about the shuffle -/

/-! ### The game engine state machine (`game-engine.js`) -/

/-- `p.role === "mafia" || p.role === "don"`. -/
def isMafiaType (r : Role) : Bool :=
  match r with
  | Role.mafia => true
  | Role.don => true
  | _ => false

/-- `p.role === "citizen" || p.role === "doctor"` (the partition used by
`checkWinConditions`; note the lover roles fall in neither side). -/
def isCitizenType (r : Role) : Bool :=
  match r with
  | Role.citizen => true
  | Role.doctor => true
  | _ => false

/-- `game.players.find(p => p.nickname === nick)`. -/
def findPlayer (ps : List Player) (nick : String) : Option Player :=
  ps.find? (fun p => p.nickname == nick)

/-- `killedPlayer.isAlive = false` on the first player with this
nickname (the object returned by `find`). -/
def markDead (ps : List Player) (nick : String) : List Player :=
  match ps with
  | [] => []
  | p :: t =>
    if p.nickname == nick then { p with isAlive := false } :: t
    else p :: markDead t nick

/-- `startPhaseTimer(roomId)`: when a game is active, create one more
live interval; the previously created intervals are left running. -/
def startPhaseTimer (room : RoomState) : RoomState :=
  match room.game with
  | none => room
  | some _ =>
    { room with timers := room.timers ++ [room.nextTimer],
                nextTimer := room.nextTimer + 1 }

/-- `endGame(roomId, winner)`: detach the game, revert the room to
waiting, record the winner in the database.  The live intervals are not
cancelled (faithful to the source). -/
def endGame (room : RoomState) (winner : String) : RoomState :=
  match room.game with
  | none => room
  | some _ =>
    { room with status := "waiting", game := none, dbWinner := some winner }

/-- `checkWinConditions(roomId)`: count living mafia-type and living
citizen/doctor players; citizens win on zero mafia, mafia wins when its
count is at least the citizen/doctor count.  Returns the updated room
and whether the game ended. -/
def checkWinConditions (room : RoomState) : RoomState × Bool :=
  match room.game with
  | none => (room, false)
  | some g =>
    let alivePlayers := g.players.filter (·.isAlive)
    let aliveMafia := alivePlayers.filter (fun p => isMafiaType p.role)
    let aliveCitizens := alivePlayers.filter (fun p => isCitizenType p.role)
    if aliveMafia.length = 0 then (endGame room "citizens", true)
    else if aliveCitizens.length ≤ aliveMafia.length then
      (endGame room "mafia", true)
    else (room, false)

/-- The kill entries scanned by `processNightActions`: current pending
actions whose verb is `kill` and whose actor is found among the players
with role mafia or don. -/
def mafiaKillsOf (g : Game) : List (String × ActionRec) :=
  g.actions.filter (fun pa =>
    pa.2.verb == "kill" &&
      (match findPlayer g.players pa.1 with
       | some p => isMafiaType p.role
       | none => false))

/-- The heal entries scanned by `processNightActions`: pending actions
whose verb is `heal` and whose actor has role doctor. -/
def doctorHealsOf (g : Game) : List (String × ActionRec) :=
  g.actions.filter (fun pa =>
    pa.2.verb == "heal" &&
      (match findPlayer g.players pa.1 with
       | some p => p.role == Role.doctor
       | none => false))

/-- The nickname of the player killed by `processNightActions`:
the target of the first kill entry, unless some heal targets the same
victim, and only when that target is an actual player. -/
def nightVictim (g : Game) : Option String :=
  match mafiaKillsOf g with
  | [] => none
  | (_, a) :: _ =>
    if (doctorHealsOf g).any (fun ph => ph.2.target == a.target) then none
    else
      match g.players.find? (fun p => a.target == some p.nickname) with
      | some p => some p.nickname
      | none => none

/-- The player list after the night kill resolution. -/
def nightPlayersAfter (g : Game) : List Player :=
  match nightVictim g with
  | none => g.players
  | some n => markDead g.players n

/-- `processNightActions(roomId)`: resolve the kill/heal actions, move
to day, reset the countdown to 120, clear pending actions, set the
outcome line, run the win check, and start one more phase timer. -/
def processNightActions (room : RoomState) : RoomState :=
  match room.game with
  | none => room
  | some g =>
    let lastAction' := match nightVictim g with
      | some n => n ++ " был убит ночью"
      | none => "Ночь прошла спокойно"
    let g1 : Game :=
      { g with players := nightPlayersAfter g, phase := Phase.day,
               timeLeft := 120, actions := [], lastAction := some lastAction' }
    let room1 := { room with game := some g1 }
    startPhaseTimer (checkWinConditions room1).1

/-- One step of the tally loop of `processDayVoting`: count an entry
with verb `vote` and a truthy target. -/
def tallyStep (acc : List (String × Nat)) (pa : String × ActionRec) :
    List (String × Nat) :=
  match pa.2.target with
  | some t => if pa.2.verb == "vote" && t != "" then incAssoc acc t else acc
  | none => acc

/-- The vote tally built by `processDayVoting`: one pass over the
pending actions into an insertion-ordered object. -/
def tallyVotes (actions : List (String × ActionRec)) : List (String × Nat) :=
  actions.foldl tallyStep []

/-- One step of the max scan of `processDayVoting`: running maximum
with strict comparison. -/
def scanStep (acc : Nat × Option String) (tv : String × Nat) :
    Nat × Option String :=
  if acc.1 < tv.2 then (tv.2, some tv.1) else acc

/-- The max scan of `processDayVoting`: the first tally entry attaining
the overall maximum is kept. -/
def scanMax (tally : List (String × Nat)) : Nat × Option String :=
  tally.foldl scanStep (0, none)

/-- The elimination performed by `processDayVoting`: the updated player
list and the outcome line.  When the scan selected a target and votes
were cast, the first player with that nickname is marked dead; a target
that is no player changes nothing (and leaves the old outcome line). -/
def dayVoteOutcome (g : Game) : List Player × Option String :=
  let m := scanMax (tallyVotes g.actions)
  match m.2 with
  | some t =>
    if 0 < m.1 then
      match findPlayer g.players t with
      | some _ => (markDead g.players t, some (t ++ " был исключён голосованием"))
      | none => (g.players, g.lastAction)
    else (g.players, some "Никто не был исключён")
  | none => (g.players, some "Никто не был исключён")

/-- `processDayVoting(roomId)`: tally votes, eliminate the running-max
target when votes were cast, run the win check, and when the game goes
on move to night (next day, countdown 60, actions cleared) with one
more phase timer. -/
def processDayVoting (room : RoomState) : RoomState :=
  match room.game with
  | none => room
  | some g =>
    let dead := dayVoteOutcome g
    let g1 : Game :=
      { g with players := dead.1, lastAction := dead.2,
               votingResults := tallyVotes g.actions }
    let cw := checkWinConditions { room with game := some g1 }
    if cw.2 then cw.1
    else
      match cw.1.game with
      | none => cw.1
      | some g2 =>
        let g3 : Game :=
          { g2 with phase := Phase.night, day := g2.day + 1, timeLeft := 60,
                    actions := [] }
        startPhaseTimer { cw.1 with game := some g3 }

/-- `checkPhaseCompletion(roomId)`: at night, resolve as soon as every
living mafia-type player has a pending action; at day, resolve as soon
as the number of pending `vote` actions equals the number of living
players. -/
def checkPhaseCompletion (room : RoomState) : RoomState :=
  match room.game with
  | none => room
  | some g =>
    let alivePlayers := g.players.filter (·.isAlive)
    match g.phase with
    | Phase.night =>
      let aliveMafia := alivePlayers.filter (fun p => isMafiaType p.role)
      let acted := aliveMafia.filter (fun p => (lookupAssoc g.actions p.nickname).isSome)
      if acted.length = aliveMafia.length then processNightActions room else room
    | Phase.day =>
      let votes := g.actions.filter (fun pa => pa.2.verb == "vote")
      if votes.length = alivePlayers.length then processDayVoting room else room

/-- `handleAction(room, playerNickname, action, target)`: ignore actors
that are absent or dead, store the action (overwriting any pending one
of the same actor), log it, then check for phase completion. -/
def handleAction (room : RoomState) (nick : String) (verb : String)
    (target : Option String) (ts : Nat) : RoomState :=
  match room.game with
  | none => room
  | some g =>
    match findPlayer g.players nick with
    | none => room
    | some p =>
      if p.isAlive then
        let g1 : Game :=
          { g with
            actions := setAssoc g.actions nick
              { verb := verb, target := target, timestamp := ts },
            gameLog := g.gameLog ++
              [{ phase := g.phase, day := g.day, player := nick,
                 verb := verb, target := target }] }
        checkPhaseCompletion { room with game := some g1 }
      else room

/-- One tick of a live interval created by `startPhaseTimer`: decrement
the countdown; on reaching zero, clear this interval and resolve the
current phase. -/
def timerTick (room : RoomState) (tid : Nat) : RoomState :=
  if tid ∈ room.timers then
    match room.game with
    | none => room
    | some g =>
      let g1 : Game := { g with timeLeft := g.timeLeft - 1 }
      if g1.timeLeft ≤ 0 then
        let room2 := { room with game := some g1, timers := room.timers.erase tid }
        match g1.phase with
        | Phase.night => processNightActions room2
        | Phase.day => processDayVoting room2
      else { room with game := some g1 }
  else room

/-- External events dispatched to one room: an inbound game action of a
player, or the tick of one of the live phase intervals. -/
inductive Ev
  | act (nick verb : String) (target : Option String) (ts : Nat)
  | tick (tid : Nat)
deriving DecidableEq, Repr

/-- Dispatch of one event. -/
def stepEv (room : RoomState) : Ev → RoomState
  | Ev.act n v t ts => handleAction room n v t ts
  | Ev.tick tid => timerTick room tid

/-- A sequence of events processed in order. -/
def runTrace (room : RoomState) (evs : List Ev) : RoomState :=
  evs.foldl stepEv room

/-! ### The websocket handler (`websocket-handler.js`) -/

/-- A chat transcript entry. -/
structure ChatMsg where
  sender : String
  message : String
deriving DecidableEq, Repr

/-- A roster entry of `room.players` on the handler side. -/
structure RoomPlayer where
  nickname : String
  avatar : String
  isCreator : Bool
  isReady : Bool
  role : Option Role
  isAlive : Bool
deriving DecidableEq, Repr

/-- A room object held in `this.rooms`. -/
structure HRoom where
  id : String
  name : String
  status : String
  players : List RoomPlayer
  maxPlayers : Nat
  creator : String
  password : Option String
  roles : RoleSettings
  messages : List ChatMsg
  game : Option Game
deriving DecidableEq, Repr

/-- A user record held in `this.users` (keyed by connection). -/
structure HUser where
  nickname : String
  avatar : String
  isAuthenticated : Bool
  currentRoom : Option String
deriving DecidableEq, Repr

/-- A sanitized roster entry as sent to clients. -/
structure SanPlayer where
  nickname : String
  avatar : String
  isCreator : Bool
  isReady : Bool
  isAlive : Bool
  role : Option Role
deriving DecidableEq, Repr

/-- The sanitized game block of an outgoing room snapshot. -/
structure SanGame where
  phase : Phase
  day : Nat
  timeLeft : Int
  votingResults : List (String × Nat)
  lastAction : Option String
deriving DecidableEq, Repr

/-- An outgoing room snapshot. -/
structure SanRoom where
  id : String
  name : String
  status : String
  players : List SanPlayer
  maxPlayers : Nat
  creator : String
  roles : RoleSettings
  messages : List ChatMsg
  game : Option SanGame
deriving DecidableEq, Repr

/-- `room.messages.slice(-50)`: the last 50 transcript entries. -/
def lastMessages (l : List ChatMsg) : List ChatMsg :=
  l.drop (l.length - 50)

/-- `sanitizeRoomForClient(room, userNickname)`: a role is included only
for the recipient's own roster entry or once the room status is
finished; every other role field is nulled. -/
def sanitizeRoomForClient (room : HRoom) (userNickname : Option String) :
    SanRoom :=
  { id := room.id, name := room.name, status := room.status,
    players := room.players.map (fun p =>
      { nickname := p.nickname, avatar := p.avatar, isCreator := p.isCreator,
        isReady := p.isReady, isAlive := p.isAlive,
        role := if some p.nickname == userNickname || room.status == "finished"
          then p.role else none }),
    maxPlayers := room.maxPlayers, creator := room.creator,
    roles := room.roles, messages := lastMessages room.messages,
    game := room.game.map (fun g =>
      { phase := g.phase, day := g.day, timeLeft := g.timeLeft,
        votingResults := g.votingResults, lastAction := g.lastAction }) }

/-- Which guard of `joinRoom` fired. -/
inductive JoinOutcome
  | notAuth
  | alreadyInRoom
  | notFound
  | wrongPassword
  | roomFull
  | gameInProgress
  | joined
deriving DecidableEq, Repr

/-- An outgoing handler message (the payloads the claims observe). -/
inductive OutMsg
  | errorMsg (text : String)
  | roomJoined (room : SanRoom)
  | roomUpdated (room : SanRoom)
  | chat (sender text : String)
  | roomsList
deriving DecidableEq, Repr

/-- The handler state touched by `joinRoom`. -/
structure HandlerState where
  users : List (Nat × HUser)
  rooms : List (String × HRoom)
deriving DecidableEq, Repr

/-- The password guard of `joinRoom`:
`dbRoom && dbRoom.password && dbRoom.password !== password` — the check
runs against the database row (absent row or null/empty password means
no check). -/
def dbPasswordRejects (dbPassword : Option (Option String))
    (password : Option String) : Bool :=
  match dbPassword with
  | some (some pw) => pw != "" && password != some pw
  | _ => false

/-- The participant record `joinRoom` appends. -/
def joinNewPlayer (u : HUser) : RoomPlayer :=
  { nickname := u.nickname, avatar := u.avatar, isCreator := false,
    isReady := false, role := none, isAlive := true }

/-- `joinRoom(ws, roomId, password)`.  The database row for the room is
passed as `dbPassword` (`none` when the row is absent, otherwise the
row's password field); the source checks the supplied password against
that row, not against the in-memory room.  On success the participant
is appended, the joiner gets `roomJoined`, every member of the room
(the joiner included, since the binding is installed first) gets
`roomUpdated` and a system chat line, and the lobby gets a fresh room
list. -/
def joinRoom (st : HandlerState) (ws : Nat) (roomId : String)
    (password : Option String) (dbPassword : Option (Option String)) :
    HandlerState × JoinOutcome × List (Nat × OutMsg) :=
  match lookupAssoc st.users ws with
  | none => (st, JoinOutcome.notAuth, [(ws, OutMsg.errorMsg "Вы не авторизованы")])
  | some u =>
    if !u.isAuthenticated then
      (st, JoinOutcome.notAuth, [(ws, OutMsg.errorMsg "Вы не авторизованы")])
    else if u.currentRoom.isSome then
      (st, JoinOutcome.alreadyInRoom,
        [(ws, OutMsg.errorMsg "Вы уже находитесь в комнате")])
    else
      match lookupAssoc st.rooms roomId with
      | none =>
        (st, JoinOutcome.notFound, [(ws, OutMsg.errorMsg "Комната не найдена")])
      | some room =>
        if dbPasswordRejects dbPassword password then
          (st, JoinOutcome.wrongPassword,
            [(ws, OutMsg.errorMsg "Неверный пароль")])
        else if room.maxPlayers ≤ room.players.length then
          (st, JoinOutcome.roomFull, [(ws, OutMsg.errorMsg "Комната заполнена")])
        else if room.status != "waiting" then
          (st, JoinOutcome.gameInProgress,
            [(ws, OutMsg.errorMsg "Игра уже началась")])
        else
          let room' := { room with players := room.players ++ [joinNewPlayer u] }
          let u' := { u with currentRoom := some roomId }
          let st' : HandlerState :=
            { users := setAssoc st.users ws u',
              rooms := setAssoc st.rooms roomId room' }
          let members := st'.users.filter (fun wu => wu.2.currentRoom == some roomId)
          let lobby := st'.users.filter
            (fun wu => wu.2.isAuthenticated && wu.2.currentRoom == none)
          (st', JoinOutcome.joined,
            ((ws, OutMsg.roomJoined (sanitizeRoomForClient room' (some u.nickname)))
              :: members.map (fun wu =>
                   (wu.1, OutMsg.roomUpdated (sanitizeRoomForClient room' none))))
              ++ members.map (fun wu =>
                   (wu.1, OutMsg.chat "Система"
                     (u.nickname ++ " присоединился к комнате")))
              ++ lobby.map (fun wu => (wu.1, OutMsg.roomsList)))

/-- The identity/session maps touched by `handleLogin` and
`handleDisconnect`.  `liveConns` is the set of open transports,
`outbox` the tagged messages sent so far. -/
structure WsState where
  users : List (Nat × HUser)
  usersByNickname : List (String × Nat)
  liveConns : List Nat
  outbox : List (Nat × String)
deriving DecidableEq, Repr

/-- A new transport connection is opened. -/
def wsConnect (s : WsState) (conn : Nat) : WsState :=
  { s with liveConns := s.liveConns ++ [conn],
           outbox := s.outbox ++ [(conn, "connected")] }

/-- `handleLogin` after a successful credential check: kick and close
any existing connection of the same nickname, then install the new
binding.  `close()` is initiated synchronously (the old transport
leaves `liveConns` here), but the `close` event that runs
`handleDisconnect` for the old connection is delivered later as its own
event. -/
def wsLogin (s : WsState) (conn : Nat) (nickname avatar : String) : WsState :=
  let s1 :=
    match lookupAssoc s.usersByNickname nickname with
    | some e =>
      if e ≠ conn then
        { s with outbox := s.outbox ++ [(e, "kicked")],
                 liveConns := s.liveConns.erase e }
      else s
    | none => s
  { s1 with
    users := setAssoc s1.users conn
      { nickname := nickname, avatar := avatar, isAuthenticated := true,
        currentRoom := none },
    usersByNickname := setAssoc s1.usersByNickname nickname conn,
    outbox := s1.outbox ++ [(conn, "loginSuccess")] }

/-- `handleDisconnect`: the transport is gone; when the connection had a
user record, delete it and — unconditionally — delete the
`usersByNickname` entry of that user's nickname, even when that entry
meanwhile points at a newer connection.  (Room departure only touches
room state, not these identity maps, and is orthogonal here.) -/
def wsDisconnect (s : WsState) (conn : Nat) : WsState :=
  let s0 := { s with liveConns := s.liveConns.erase conn }
  match lookupAssoc s0.users conn with
  | none => s0
  | some u =>
    { s0 with users := eraseAssoc s0.users conn,
              usersByNickname := eraseAssoc s0.usersByNickname u.nickname }

/-! ### Observation helpers -/

/-- The pending-actions map of a room's game, when a game is active. -/
def roomActions (room : RoomState) : Option (List (String × ActionRec)) :=
  room.game.map (·.actions)

/-- The alive flag the engine would read for a nickname: `some b` when
the player exists, `none` otherwise. -/
def aliveInRoom (room : RoomState) (nick : String) : Option Bool :=
  match room.game with
  | none => none
  | some g => (findPlayer g.players nick).map (·.isAlive)

/-- Alive flag looked up directly in a player list. -/
def aliveIn (ps : List Player) (nick : String) : Option Bool :=
  (findPlayer ps nick).map (·.isAlive)

/-! ### Definitions written from the specification's words, for
comparison with the embedded source -/

/-- Written from the spec (§4.3 win evaluation), for comparison with
`checkWinConditions`: partition the living participants into mafia-type
and town-type — town-type being every living non-mafia-type participant
(protector included) — citizens win iff the mafia-type count is 0,
mafia wins iff the mafia-type count is at least the town-type count. -/
def specPartitionWinner (g : Game) : Option String :=
  let alive := g.players.filter (·.isAlive)
  let m := (alive.filter (fun p => isMafiaType p.role)).length
  let t := (alive.filter (fun p => !isMafiaType p.role)).length
  if m = 0 then some "citizens"
  else if t ≤ m then some "mafia"
  else none

/-- Written from the spec (§4.3 night resolution), for comparison with
`processNightActions`: the honored kill is the earliest-submitted
pending `kill` action among mafia-type actors, earliest by submission
timestamp. -/
def specEarliestKillTarget (g : Game) : Option String :=
  match mafiaKillsOf g with
  | [] => none
  | k :: ks =>
    (ks.foldl (fun best cur =>
      if cur.2.timestamp < best.2.timestamp then cur else best) k).2.target

/-! ### Property statements used by the claims -/

/-- `true` on a pending entry that is a vote for target `t`. -/
def isVoteFor (t : String) (pa : String × ActionRec) : Bool :=
  pa.2.verb == "vote" && pa.2.target == some t

/-- The living mafia-type count read by the win evaluation. -/
def aliveMafiaCount (g : Game) : Nat :=
  ((g.players.filter (·.isAlive)).filter (fun p => isMafiaType p.role)).length

/-- The living citizen/doctor count read by the win evaluation (lover
roles belong to neither side). -/
def aliveTownCount (g : Game) : Nat :=
  ((g.players.filter (·.isAlive)).filter (fun p => isCitizenType p.role)).length

/-- Win-evaluation property (amended claim C3): citizens win iff no
living mafia-type remains; mafia wins iff some mafia-type remains and
the living citizen/doctor count is at most the mafia-type count; the
game goes on, with the room untouched, iff some mafia-type remains and
is strictly outnumbered by citizen/doctor players; a decided winner
detaches the game and reverts the room to waiting. -/
def WinEvalSpec (room : RoomState) (g : Game) : Prop :=
  ((checkWinConditions room).2 = true ∧
     (checkWinConditions room).1.dbWinner = some "citizens"
    ↔ aliveMafiaCount g = 0) ∧
  ((checkWinConditions room).2 = true ∧
     (checkWinConditions room).1.dbWinner = some "mafia"
    ↔ (aliveMafiaCount g ≠ 0 ∧ aliveTownCount g ≤ aliveMafiaCount g)) ∧
  ((checkWinConditions room).2 = false
    ↔ (aliveMafiaCount g ≠ 0 ∧ aliveMafiaCount g < aliveTownCount g)) ∧
  ((checkWinConditions room).2 = false → checkWinConditions room = (room, false)) ∧
  ((checkWinConditions room).2 = true →
    (checkWinConditions room).1.game = none ∧
    (checkWinConditions room).1.status = "waiting")

/-- Day-vote resolution property (claim C4): the tally counts, per
target, exactly the pending vote actions for that target; when the max
scan selects nobody, no vote was cast and every alive flag is
unchanged; when it selects `w`, the tally splits as strictly-smaller
entries, then `w` with the maximum count, then entries not exceeding
it (so `w` holds the strict running maximum, first to reach it), and
exactly `w`, when it names an actual player, is eliminated. -/
def DayVoteSpec (room : RoomState) (g : Game) : Prop :=
  (∀ t, t ≠ "" →
    lookupNat (tallyVotes g.actions) t
      = (g.actions.filter (isVoteFor t)).length) ∧
  ((scanMax (tallyVotes g.actions)).2 = none →
    tallyVotes g.actions = [] ∧
    ∀ nick, aliveInRoom (processDayVoting room) nick = aliveIn g.players nick) ∧
  (∀ w, (scanMax (tallyVotes g.actions)).2 = some w →
    (∃ l1 l2, tallyVotes g.actions
        = l1 ++ (w, (scanMax (tallyVotes g.actions)).1) :: l2 ∧
      (∀ x ∈ l1, x.2 < (scanMax (tallyVotes g.actions)).1) ∧
      (∀ x ∈ l2, x.2 ≤ (scanMax (tallyVotes g.actions)).1)) ∧
    (∀ nick, aliveInRoom (processDayVoting room) nick
      = if nick = w ∧ (findPlayer g.players w).isSome then some false
        else aliveIn g.players nick))

/-- Night resolution property (amended claim C5): with no pending kill
by a mafia-type actor nobody dies; otherwise the honored kill is the
one held by the first kill entry of the pending-actions map (the map
keeps each actor at its first-submission position), a heal on that
target negates it so nobody dies, and otherwise exactly that target,
when it names an actual player, dies. -/
def NightKillSpec (room : RoomState) (g : Game) : Prop :=
  (mafiaKillsOf g = [] →
    ∀ nick, aliveInRoom (processNightActions room) nick = aliveIn g.players nick) ∧
  (∀ killer a rest, mafiaKillsOf g = (killer, a) :: rest →
    ((doctorHealsOf g).any (fun ph => ph.2.target == a.target) = true →
      ∀ nick, aliveInRoom (processNightActions room) nick = aliveIn g.players nick) ∧
    ((doctorHealsOf g).any (fun ph => ph.2.target == a.target) = false →
      ∀ nick, aliveInRoom (processNightActions room) nick
        = if a.target = some nick ∧ (findPlayer g.players nick).isSome
          then some false else aliveIn g.players nick))

/-- Join-room property (claim C8): each guard fails with its error and
leaves the whole handler state unchanged; a successful join appends the
participant, installs the room binding, and sends the roster update and
the system chat line to every previous member of the room. -/
def JoinRoomSpec (st : HandlerState) (ws : Nat) (roomId : String)
    (password : Option String) (dbPassword : Option (Option String))
    (u : HUser) : Prop :=
  (lookupAssoc st.rooms roomId = none →
    joinRoom st ws roomId password dbPassword
      = (st, JoinOutcome.notFound, [(ws, OutMsg.errorMsg "Комната не найдена")])) ∧
  (∀ room pw, lookupAssoc st.rooms roomId = some room →
    dbPassword = some room.password → room.password = some pw → pw ≠ "" →
    password ≠ some pw →
    joinRoom st ws roomId password dbPassword
      = (st, JoinOutcome.wrongPassword,
          [(ws, OutMsg.errorMsg "Неверный пароль")])) ∧
  (∀ room, lookupAssoc st.rooms roomId = some room →
    dbPasswordRejects dbPassword password = false →
    room.maxPlayers ≤ room.players.length →
    joinRoom st ws roomId password dbPassword
      = (st, JoinOutcome.roomFull, [(ws, OutMsg.errorMsg "Комната заполнена")])) ∧
  (∀ room, lookupAssoc st.rooms roomId = some room →
    dbPasswordRejects dbPassword password = false →
    room.players.length < room.maxPlayers → room.status ≠ "waiting" →
    joinRoom st ws roomId password dbPassword
      = (st, JoinOutcome.gameInProgress,
          [(ws, OutMsg.errorMsg "Игра уже началась")])) ∧
  (∀ room, lookupAssoc st.rooms roomId = some room →
    dbPasswordRejects dbPassword password = false →
    room.players.length < room.maxPlayers → room.status = "waiting" →
    lookupAssoc (joinRoom st ws roomId password dbPassword).1.rooms roomId
      = some { room with players := room.players ++ [joinNewPlayer u] } ∧
    lookupAssoc (joinRoom st ws roomId password dbPassword).1.users ws
      = some { u with currentRoom := some roomId } ∧
    (joinRoom st ws roomId password dbPassword).2.1 = JoinOutcome.joined ∧
    (∀ c v, (c, v) ∈ st.users → c ≠ ws → v.currentRoom = some roomId →
      (c, OutMsg.roomUpdated (sanitizeRoomForClient
          { room with players := room.players ++ [joinNewPlayer u] } none))
        ∈ (joinRoom st ws roomId password dbPassword).2.2 ∧
      (c, OutMsg.chat "Система" (u.nickname ++ " присоединился к комнате"))
        ∈ (joinRoom st ws roomId password dbPassword).2.2))

/-! ### Concrete scenarios -/

/-- Shorthand for a living player record. -/
def mkPlayer (n : String) (r : Role) : Player :=
  { nickname := n, role := r, isAlive := true }

/-- Scenario for C1: a fresh night-1 game, one don and three citizens,
countdown 60, one live phase interval (id 0). -/
def c1Game : Game :=
  { phase := Phase.night, day := 1, timeLeft := 60, actions := [],
    players := [mkPlayer "A" Role.don, mkPlayer "P1" Role.citizen,
                mkPlayer "P2" Role.citizen, mkPlayer "P3" Role.citizen],
    lastAction := none, gameLog := [], votingResults := [] }

def c1Room : RoomState :=
  { game := some c1Game, status := "playing", timers := [0], nextTimer := 1,
    dbWinner := none }

/-- C1 mid-state: the lone living mafia submits its kill, so the
all-actions trigger resolves the night at once. -/
def c1Mid : RoomState := runTrace c1Room [Ev.act "A" "kill" (some "P1") 5]

/-- C1 final state: the stale night interval (id 0) keeps ticking
against the day countdown and fires. -/
def c1Final : RoomState := runTrace c1Mid (List.replicate 120 (Ev.tick 0))

/-- Scenario for C3: one living mafia-type and two living lovers. -/
def c3Game : Game :=
  { phase := Phase.night, day := 1, timeLeft := 60, actions := [],
    players := [mkPlayer "A" Role.don, mkPlayer "L1" Role.lover1,
                mkPlayer "L2" Role.lover2],
    lastAction := none, gameLog := [], votingResults := [] }

def c3Room : RoomState :=
  { game := some c3Game, status := "playing", timers := [], nextTimer := 0,
    dbWinner := none }

/-- Scenario for C5: three mafia-type players and six citizens. -/
def c5Players : List Player :=
  [mkPlayer "A" Role.don, mkPlayer "B" Role.mafia, mkPlayer "C" Role.mafia,
   mkPlayer "P1" Role.citizen, mkPlayer "P2" Role.citizen,
   mkPlayer "P3" Role.citizen, mkPlayer "P4" Role.citizen,
   mkPlayer "P5" Role.citizen, mkPlayer "P6" Role.citizen]

def c5Game : Game :=
  { phase := Phase.night, day := 1, timeLeft := 60, actions := [],
    players := c5Players, lastAction := none, gameLog := [],
    votingResults := [] }

def c5Room : RoomState :=
  { game := some c5Game, status := "playing", timers := [0], nextTimer := 1,
    dbWinner := none }

/-- C5 submissions: mafia A passes at time 1, mafia B submits the first
kill (target P1) at time 2, A resubmits a kill (target P2) at time 3,
and mafia C passes at time 4, which completes the phase. -/
def c5Trace : List Ev :=
  [Ev.act "A" "pass" none 1, Ev.act "B" "kill" (some "P1") 2,
   Ev.act "A" "kill" (some "P2") 3, Ev.act "C" "pass" none 4]

def c5Final : RoomState := runTrace c5Room c5Trace

/-- The pending-actions map `processNightActions` read when C's action
arrived: A's entry keeps its first-submission position but holds the
later kill, submitted after B's. -/
def c5AtResolution : Game :=
  { c5Game with actions :=
      [("A", { verb := "kill", target := some "P2", timestamp := 3 }),
       ("B", { verb := "kill", target := some "P1", timestamp := 2 }),
       ("C", { verb := "pass", target := none, timestamp := 4 })] }

/-- Roster for the role-distribution witness. -/
def c2wPlayers : List String := ["p1", "p2", "p3", "p4", "p5", "p6", "p7"]

def c2wSettings : RoleSettings := { doctor := true, don := true, lovers := true }

/-- A winnable-but-continuing game for the win-evaluation witness: one
living don against two living citizens. -/
def c3wGame : Game :=
  { phase := Phase.night, day := 1, timeLeft := 60, actions := [],
    players := [mkPlayer "A" Role.don, mkPlayer "P1" Role.citizen,
                mkPlayer "P2" Role.citizen],
    lastAction := none, gameLog := [], votingResults := [] }

def c3wRoom : RoomState :=
  { game := some c3wGame, status := "playing", timers := [], nextTimer := 0,
    dbWinner := none }

/-- A day-phase game for the day-vote witness: three votes against P3,
one against A. -/
def c4Game : Game :=
  { phase := Phase.day, day := 1, timeLeft := 120,
    actions :=
      [("A", { verb := "vote", target := some "P3", timestamp := 1 }),
       ("P1", { verb := "vote", target := some "P3", timestamp := 2 }),
       ("P2", { verb := "vote", target := some "P3", timestamp := 3 }),
       ("P3", { verb := "vote", target := some "A", timestamp := 4 })],
    players := [mkPlayer "A" Role.don, mkPlayer "P1" Role.citizen,
                mkPlayer "P2" Role.citizen, mkPlayer "P3" Role.citizen],
    lastAction := none, gameLog := [], votingResults := [] }

def c4Room : RoomState :=
  { game := some c4Game, status := "playing", timers := [1], nextTimer := 2,
    dbWinner := none }

/-- The room holding the C5 pending map, used to witness the amended
night-resolution property. -/
def c5ResRoom : RoomState :=
  { game := some c5AtResolution, status := "playing", timers := [0],
    nextTimer := 1, dbWinner := none }

/-- Handler state for the join-room witness: connection 1 is a
room-less authenticated user, connection 2 an existing member of room
r1. -/
def c8User : HUser :=
  { nickname := "neo", avatar := "a", isAuthenticated := true,
    currentRoom := none }

def c8Member : HUser :=
  { nickname := "old", avatar := "b", isAuthenticated := true,
    currentRoom := some "r1" }

def c8Room : HRoom :=
  { id := "r1", name := "Room", status := "waiting",
    players := [{ nickname := "old", avatar := "b", isCreator := true,
                  isReady := false, role := none, isAlive := true }],
    maxPlayers := 10, creator := "old", password := some "pw",
    roles := { doctor := true, don := true, lovers := false },
    messages := [], game := none }

def c8State : HandlerState :=
  { users := [(1, c8User), (2, c8Member)], rooms := [("r1", c8Room)] }

/-- A mid-game room snapshot for the role-visibility witness. -/
def c9Room : HRoom :=
  { id := "r2", name := "R", status := "playing",
    players := [{ nickname := "alice", avatar := "a", isCreator := true,
                  isReady := false, role := some Role.don, isAlive := true },
                { nickname := "bob", avatar := "b", isCreator := false,
                  isReady := false, role := some Role.citizen, isAlive := true }],
    maxPlayers := 10, creator := "alice", password := none,
    roles := { doctor := true, don := true, lovers := false },
    messages := [], game := none }

/-- The snapshot entry another member receives for bob mid-game. -/
def c9SanBob : SanPlayer :=
  { nickname := "bob", avatar := "b", isCreator := false, isReady := false,
    isAlive := true, role := none }

/-- Session-layer events for the identity-binding machine. -/
inductive WsEv
  | openConn (conn : Nat)
  | login (conn : Nat) (nickname avatar : String)
  | closed (conn : Nat)
deriving DecidableEq, Repr

def wsStep (s : WsState) : WsEv → WsState
  | WsEv.openConn c => wsConnect s c
  | WsEv.login c n a => wsLogin s c n a
  | WsEv.closed c => wsDisconnect s c

def wsRun (s : WsState) (evs : List WsEv) : WsState := evs.foldl wsStep s

def wsInit : WsState :=
  { users := [], usersByNickname := [], liveConns := [], outbox := [] }

/-- Scenario for C7: identity "A" logs in from connection 1, then from
connection 2 (kicking 1); 1's transport-close event is then delivered;
then "A" logs in from connection 3. -/
def c7Trace : List WsEv :=
  [WsEv.openConn 1, WsEv.login 1 "A" "x",
   WsEv.openConn 2, WsEv.login 2 "A" "x",
   WsEv.closed 1,
   WsEv.openConn 3, WsEv.login 3 "A" "x"]

def c7Mid : WsState := wsRun wsInit (c7Trace.take 4)

def c7Final : WsState := wsRun wsInit c7Trace

/-! ### Theorems: shuffle permutation and role quotas -/

theorem cons_getD_set_perm (xs : List Role) (x : Role) (k : Nat)
    (hk : k < xs.length) :
    (xs.getD k Role.citizen :: xs.set k x).Perm (x :: xs) := by
  induction xs generalizing k with
  | nil => simp at hk
  | cons y ys ih =>
    cases k with
    | zero =>
      simp [List.getD, List.set]
      exact List.Perm.swap x y ys
    | succ k =>
      have hk' : k < ys.length := by simpa using hk
      have h1 := ih k hk'
      have s1 : (ys.getD k Role.citizen :: y :: ys.set k x).Perm
          (y :: ys.getD k Role.citizen :: ys.set k x) := List.Perm.swap _ _ _
      have s2 : (y :: ys.getD k Role.citizen :: ys.set k x).Perm
          (y :: x :: ys) := List.Perm.cons y h1
      have s3 : (y :: x :: ys).Perm (x :: y :: ys) := List.Perm.swap _ _ _
      simpa using (s1.trans s2).trans s3

theorem swapList_perm (l : List Role) (i j : Nat)
    (hi : i < l.length) (hj : j < l.length) : (swapList l i j).Perm l := by
  induction l generalizing i j with
  | nil => simp at hi
  | cons x xs ih =>
    cases i with
    | zero =>
      cases j with
      | zero => simp [swapList, List.set]
      | succ j =>
        have hj' : j < xs.length := by simpa using hj
        simp only [swapList, List.getD_cons_zero, List.getD_cons_succ,
          List.set_cons_zero, List.set_cons_succ]
        exact cons_getD_set_perm xs x j hj'
    | succ i =>
      cases j with
      | zero =>
        have hi' : i < xs.length := by simpa using hi
        simp only [swapList, List.getD_cons_zero, List.getD_cons_succ,
          List.set_cons_zero, List.set_cons_succ]
        exact cons_getD_set_perm xs x i hi'
      | succ j =>
        have hi' : i < xs.length := by simpa using hi
        have hj' : j < xs.length := by simpa using hj
        simp only [swapList, List.getD_cons_succ, List.set_cons_succ]
        exact List.Perm.cons x (ih i j hi' hj')

theorem swapList_length (l : List Role) (i j : Nat) :
    (swapList l i j).length = l.length := by
  simp [swapList]

theorem fyAux_perm (rng : Nat → Nat) :
    ∀ (i : Nat) (l : List Role), i < l.length → (fyAux rng i l).Perm l := by
  intro i
  induction i with
  | zero => intro l _; exact List.Perm.refl l
  | succ i ih =>
    intro l hl
    have hlen : (swapList l (i + 1) (rng (i + 1) % (i + 2))).length = l.length :=
      swapList_length l _ _
    have hi2 : i < (swapList l (i + 1) (rng (i + 1) % (i + 2))).length := by
      omega
    have h1 := ih (swapList l (i + 1) (rng (i + 1) % (i + 2))) hi2
    have h2 := swapList_perm l (i + 1) (rng (i + 1) % (i + 2)) hl
      (lt_of_le_of_lt (Nat.le_of_lt_succ (Nat.mod_lt _ (by omega))) hl)
    exact h1.trans h2

theorem distributeRoles_perm (players : List String) (rs : RoleSettings)
    (rng : Nat → Nat) :
    (distributeRoles players rs rng).Perm (rolesBeforeShuffle players.length rs) := by
  unfold distributeRoles
  rcases h : rolesBeforeShuffle players.length rs with _ | ⟨r, t⟩
  · simp [fyAux]
  · exact fyAux_perm rng _ _ (by simp)

theorem lookupAssoc_setAssoc_self {κ α : Type} [DecidableEq κ]
    (l : List (κ × α)) (k : κ) (v : α) :
    lookupAssoc (setAssoc l k v) k = some v := by
  induction l with
  | nil => simp [setAssoc, lookupAssoc]
  | cons hd t ih =>
    by_cases hk : hd.1 = k
    · simp [setAssoc, lookupAssoc, hk]
    · simp [setAssoc, lookupAssoc, hk, ih]

theorem lookupAssoc_setAssoc_ne {κ α : Type} [DecidableEq κ]
    (l : List (κ × α)) (k k' : κ) (v : α) (h : k' ≠ k) :
    lookupAssoc (setAssoc l k v) k' = lookupAssoc l k' := by
  have hne : ¬(k = k') := fun hh => h hh.symm
  induction l with
  | nil => simp [setAssoc, lookupAssoc, hne]
  | cons hd t ih =>
    obtain ⟨a, b⟩ := hd
    by_cases hk : a = k
    · simp [setAssoc, lookupAssoc, hk, hne]
    · by_cases hk' : a = k'
      · simp [setAssoc, lookupAssoc, hk, hk', h]
      · simp [setAssoc, lookupAssoc, hk, hk', ih]

theorem mem_keys_setAssoc {κ α : Type} [DecidableEq κ]
    (l : List (κ × α)) (k : κ) (v : α) (x : κ)
    (hx : x ∈ (setAssoc l k v).map Prod.fst) :
    x ∈ l.map Prod.fst ∨ x = k := by
  induction l with
  | nil =>
    simp only [setAssoc, List.map_cons, List.map_nil, List.mem_cons,
      List.not_mem_nil, or_false] at hx
    exact Or.inr hx
  | cons hd t ih =>
    obtain ⟨a, b⟩ := hd
    by_cases hk : a = k
    · simp only [setAssoc, if_pos hk, List.map_cons, List.mem_cons] at hx
      simp only [List.map_cons, List.mem_cons]
      tauto
    · simp only [setAssoc, if_neg hk, List.map_cons, List.mem_cons] at hx
      simp only [List.map_cons, List.mem_cons]
      rcases hx with hx | hx
      · exact Or.inl (Or.inl hx)
      · rcases ih hx with h1 | h1
        · exact Or.inl (Or.inr h1)
        · exact Or.inr h1

theorem setAssoc_nodupKeys {κ α : Type} [DecidableEq κ]
    (l : List (κ × α)) (k : κ) (v : α)
    (h : (l.map Prod.fst).Nodup) : ((setAssoc l k v).map Prod.fst).Nodup := by
  induction l with
  | nil => simp [setAssoc]
  | cons hd t ih =>
    obtain ⟨a, b⟩ := hd
    simp only [List.map_cons, List.nodup_cons] at h
    by_cases hk : a = k
    · simp only [setAssoc, if_pos hk, List.map_cons, List.nodup_cons]
      exact ⟨h.1, h.2⟩
    · simp only [setAssoc, if_neg hk, List.map_cons, List.nodup_cons]
      refine ⟨?_, ih h.2⟩
      intro hmem
      rcases mem_keys_setAssoc t k v a hmem with h1 | h1
      · exact h.1 h1
      · exact hk h1

theorem mem_setAssoc_of_ne {κ α : Type} [DecidableEq κ]
    (l : List (κ × α)) (k : κ) (v : α) (c : κ) (w : α) (hc : c ≠ k)
    (hm : (c, w) ∈ l) : (c, w) ∈ setAssoc l k v := by
  induction l with
  | nil => simp at hm
  | cons hd t ih =>
    by_cases hk : hd.1 = k
    · simp only [setAssoc, hk, if_pos rfl]
      rcases List.mem_cons.mp hm with hm1 | hm1
      · exfalso; apply hc; rw [← hm1] at hk; exact hk
      · exact List.mem_cons_of_mem _ hm1
    · simp only [setAssoc, if_neg hk]
      rcases List.mem_cons.mp hm with hm1 | hm1
      · exact hm1 ▸ List.mem_cons_self _ _
      · exact List.mem_cons_of_mem _ (ih hm1)

theorem aliveIn_markDead (ps : List Player) (n k : String) :
    aliveIn (markDead ps n) k =
      if k = n ∧ (findPlayer ps n).isSome then some false else aliveIn ps k := by
  induction ps with
  | nil => simp [markDead, aliveIn, findPlayer]
  | cons p t ih =>
    by_cases hn : p.nickname = n
    · by_cases hk : k = n
      · simp [markDead, aliveIn, findPlayer, hn, hk]
      · have hnk : ¬(n = k) := fun h => hk h.symm
        have hpk : ¬(p.nickname = k) := by rw [hn]; exact hnk
        simp [markDead, aliveIn, findPlayer, hn, hk, hnk, hpk]
    · by_cases hk : p.nickname = k
      · have hkn : ¬(k = n) := fun h => hn (hk.trans h)
        simp [markDead, aliveIn, findPlayer, hn, hk, hkn]
      · have hmd : markDead (p :: t) n = p :: markDead t n := by
          simp [markDead, hn]
        simp only [aliveIn, findPlayer, hmd] at ih ⊢
        rw [List.find?_cons_of_neg _ (by simp [hk]),
            List.find?_cons_of_neg _ (by simp [hn]),
            List.find?_cons_of_neg _ (by simp [hk])]
        exact ih

theorem lookupNat_incAssoc_self (l : List (String × Nat)) (k : String) :
    lookupNat (incAssoc l k) k = lookupNat l k + 1 := by
  induction l with
  | nil => simp [incAssoc, lookupNat]
  | cons hd t ih =>
    obtain ⟨a, b⟩ := hd
    by_cases hk : a = k
    · simp [incAssoc, lookupNat, hk]
    · simp [incAssoc, lookupNat, hk, ih]

theorem lookupNat_incAssoc_ne (l : List (String × Nat)) (k k' : String)
    (h : k' ≠ k) : lookupNat (incAssoc l k) k' = lookupNat l k' := by
  have hne : ¬(k = k') := fun hh => h hh.symm
  induction l with
  | nil => simp [incAssoc, lookupNat, hne]
  | cons hd t ih =>
    obtain ⟨a, b⟩ := hd
    by_cases hk : a = k
    · simp [incAssoc, lookupNat, hk, hne]
    · simp [incAssoc, lookupNat, hk, ih]

theorem lookupNat_foldl_tallyStep (acts : List (String × ActionRec))
    (acc : List (String × Nat)) (t : String) (ht : t ≠ "") :
    lookupNat (acts.foldl tallyStep acc) t
      = lookupNat acc t + (acts.filter (isVoteFor t)).length := by
  induction acts generalizing acc with
  | nil => simp
  | cons pa rest ih =>
    obtain ⟨actor, a⟩ := pa
    rcases htg : a.target with _ | u
    · have hstep : tallyStep acc (actor, a) = acc := by simp [tallyStep, htg]
      have hflt : isVoteFor t (actor, a) = false := by simp [isVoteFor, htg]
      simp [List.foldl_cons, hstep, List.filter_cons, hflt, ih]
    · by_cases hv : a.verb = "vote"
      · by_cases hu : u = ""
        · have hstep : tallyStep acc (actor, a) = acc := by
            simp [tallyStep, htg, hu]
          have hflt : isVoteFor t (actor, a) = false := by
            simp [isVoteFor, htg, hu, Ne.symm ht]
          simp [List.foldl_cons, hstep, List.filter_cons, hflt, ih]
        · by_cases hut : u = t
          · have hstep : tallyStep acc (actor, a) = incAssoc acc t := by
              simp [tallyStep, htg, hv, hu, hut, ht]
            have hflt : isVoteFor t (actor, a) = true := by
              simp [isVoteFor, htg, hv, hut]
            rw [List.foldl_cons, hstep, ih (incAssoc acc t), List.filter_cons]
            simp [hflt, lookupNat_incAssoc_self]
            omega
          · have hstep : tallyStep acc (actor, a) = incAssoc acc u := by
              simp [tallyStep, htg, hv, hu]
            have hflt : isVoteFor t (actor, a) = false := by
              simp [isVoteFor, htg, hv, hut]
            rw [List.foldl_cons, hstep, ih (incAssoc acc u), List.filter_cons]
            simp [hflt, lookupNat_incAssoc_ne acc u t (fun hh => hut hh.symm)]
      · have hstep : tallyStep acc (actor, a) = acc := by
          simp [tallyStep, htg, hv]
        have hflt : isVoteFor t (actor, a) = false := by
          simp [isVoteFor, hv]
        simp [List.foldl_cons, hstep, List.filter_cons, hflt, ih]

theorem foldl_scanStep_spec (l : List (String × Nat)) (acc : Nat × Option String) :
    (l.foldl scanStep acc = acc ∧ ∀ x ∈ l, x.2 ≤ acc.1) ∨
    (∃ l1 tc l2, l = l1 ++ tc :: l2 ∧
      l.foldl scanStep acc = (tc.2, some tc.1) ∧ acc.1 < tc.2 ∧
      (∀ x ∈ l1, x.2 < tc.2) ∧ (∀ x ∈ l2, x.2 ≤ tc.2)) := by
  induction l generalizing acc with
  | nil => exact Or.inl ⟨rfl, by simp⟩
  | cons hd tl ih =>
    by_cases hlt : acc.1 < hd.2
    · have hstep : scanStep acc hd = (hd.2, some hd.1) := by simp [scanStep, hlt]
      rcases ih (hd.2, some hd.1) with ⟨heq, hle⟩ | ⟨l1, tc, l2, hsplit, hres, hlt2, h1, h2⟩
      · refine Or.inr ⟨[], hd, tl, by simp, ?_, hlt, by simp, hle⟩
        rw [List.foldl_cons, hstep, heq]
      · refine Or.inr ⟨hd :: l1, tc, l2, by rw [hsplit]; rfl, ?_,
          lt_trans hlt hlt2, ?_, h2⟩
        · rw [List.foldl_cons, hstep, hres]
        · intro x hx
          rcases List.mem_cons.mp hx with hx | hx
          · rw [hx]; exact hlt2
          · exact h1 x hx
    · have hstep : scanStep acc hd = acc := by simp [scanStep, hlt]
      rcases ih acc with ⟨heq, hle⟩ | ⟨l1, tc, l2, hsplit, hres, hlt2, h1, h2⟩
      · refine Or.inl ⟨?_, ?_⟩
        · rw [List.foldl_cons, hstep, heq]
        · intro x hx
          rcases List.mem_cons.mp hx with hx | hx
          · rw [hx]; omega
          · exact hle x hx
      · refine Or.inr ⟨hd :: l1, tc, l2, by rw [hsplit]; rfl, ?_, hlt2, ?_, h2⟩
        · rw [List.foldl_cons, hstep, hres]
        · intro x hx
          rcases List.mem_cons.mp hx with hx | hx
          · rw [hx]; omega
          · exact h1 x hx

theorem incAssoc_pos (l : List (String × Nat)) (k : String)
    (h : ∀ x ∈ l, 1 ≤ x.2) : ∀ x ∈ incAssoc l k, 1 ≤ x.2 := by
  induction l with
  | nil =>
    intro x hx
    simp [incAssoc] at hx
    simp [hx]
  | cons hd t ih =>
    obtain ⟨a, b⟩ := hd
    intro x hx
    by_cases hk : a = k
    · simp only [incAssoc, if_pos hk] at hx
      rcases List.mem_cons.mp hx with hx | hx
      · rw [hx]; exact Nat.succ_le_succ (Nat.zero_le b)
      · exact h x (List.mem_cons_of_mem _ hx)
    · simp only [incAssoc, if_neg hk] at hx
      rcases List.mem_cons.mp hx with hx | hx
      · rw [hx]; exact h (a, b) (List.mem_cons_self _ _)
      · exact ih (fun y hy => h y (List.mem_cons_of_mem _ hy)) x hx

theorem foldl_tallyStep_pos (acts : List (String × ActionRec))
    (acc : List (String × Nat)) (h : ∀ x ∈ acc, 1 ≤ x.2) :
    ∀ x ∈ acts.foldl tallyStep acc, 1 ≤ x.2 := by
  induction acts generalizing acc with
  | nil => simpa using h
  | cons pa rest ih =>
    rw [List.foldl_cons]
    apply ih
    intro x hx
    unfold tallyStep at hx
    rcases htg : pa.2.target with _ | u
    · simp only [htg] at hx
      exact h x hx
    · simp only [htg] at hx
      by_cases hb : (pa.2.verb == "vote" && u != "") = true
      · rw [if_pos hb] at hx
        exact incAssoc_pos acc u h x hx
      · rw [if_neg hb] at hx
        exact h x hx

theorem tallyVotes_pos (acts : List (String × ActionRec)) :
    ∀ x ∈ tallyVotes acts, 1 ≤ x.2 :=
  foldl_tallyStep_pos acts [] (by simp)

theorem checkWinConditions_eq (room : RoomState) (g : Game)
    (hg : room.game = some g) :
    checkWinConditions room =
      if aliveMafiaCount g = 0 then (endGame room "citizens", true)
      else if aliveTownCount g ≤ aliveMafiaCount g then
        (endGame room "mafia", true)
      else (room, false) := by
  simp [checkWinConditions, aliveMafiaCount, aliveTownCount, hg]

theorem endGame_eq (room : RoomState) (g : Game) (w : String)
    (hg : room.game = some g) :
    endGame room w
      = { room with status := "waiting", game := none, dbWinner := some w } := by
  simp [endGame, hg]

theorem startPhaseTimer_game (room : RoomState) :
    (startPhaseTimer room).game = room.game := by
  rcases hg : room.game with _ | g <;> simp [startPhaseTimer, hg]

theorem aliveInRoom_startPhaseTimer (room : RoomState) (nick : String) :
    aliveInRoom (startPhaseTimer room) nick = aliveInRoom room nick := by
  rcases hg : room.game with _ | g <;> simp [startPhaseTimer, aliveInRoom, hg]

theorem checkWin_dichotomy (room : RoomState) (g : Game)
    (hg : room.game = some g) :
    checkWinConditions room = (room, false) ∨
    ((checkWinConditions room).2 = true ∧
      (checkWinConditions room).1.game = none) := by
  rw [checkWinConditions_eq room g hg]
  by_cases h1 : aliveMafiaCount g = 0
  · right
    rw [if_pos h1]
    exact ⟨rfl, by rw [endGame_eq room g _ hg]⟩
  · by_cases h2 : aliveTownCount g ≤ aliveMafiaCount g
    · right
      rw [if_neg h1, if_pos h2]
      exact ⟨rfl, by rw [endGame_eq room g _ hg]⟩
    · left
      rw [if_neg h1, if_neg h2]

theorem processNightActions_alive (room : RoomState) (g : Game)
    (hg : room.game = some g)
    (hcont : (processNightActions room).game.isSome = true) (nick : String) :
    aliveInRoom (processNightActions room) nick
      = aliveIn (nightPlayersAfter g) nick := by
  have hpn : processNightActions room
      = startPhaseTimer (checkWinConditions
          { room with game := some (
            { g with players := nightPlayersAfter g, phase := Phase.day,
                     timeLeft := 120, actions := [],
                     lastAction := some (match nightVictim g with
                       | some n => n ++ " был убит ночью"
                       | none => "Ночь прошла спокойно") }) }).1 := by
    simp [processNightActions, hg]
  rcases checkWin_dichotomy
      { room with game := some (
        { g with players := nightPlayersAfter g, phase := Phase.day,
                 timeLeft := 120, actions := [],
                 lastAction := some (match nightVictim g with
                   | some n => n ++ " был убит ночью"
                   | none => "Ночь прошла спокойно") }) } _ rfl with hcw | ⟨ht, hn⟩
  · rw [hpn, hcw, aliveInRoom_startPhaseTimer]
    simp [aliveInRoom, aliveIn]
  · exfalso
    rw [hpn] at hcont
    rw [startPhaseTimer] at hcont
    simp only [hn] at hcont
    simp at hcont

theorem processDayVoting_alive (room : RoomState) (g : Game)
    (hg : room.game = some g)
    (hcont : (processDayVoting room).game.isSome = true) (nick : String) :
    aliveInRoom (processDayVoting room) nick
      = aliveIn (dayVoteOutcome g).1 nick := by
  rcases checkWin_dichotomy
      { room with game := some (
        { g with players := (dayVoteOutcome g).1,
                 lastAction := (dayVoteOutcome g).2,
                 votingResults := tallyVotes g.actions }) } _ rfl with hcw | ⟨ht, hn⟩
  · have hpd : processDayVoting room
        = startPhaseTimer
            { room with game := some (
              { g with players := (dayVoteOutcome g).1,
                       lastAction := (dayVoteOutcome g).2,
                       votingResults := tallyVotes g.actions,
                       phase := Phase.night, day := g.day + 1, timeLeft := 60,
                       actions := [] }) } := by
      simp [processDayVoting, hg, hcw]
    rw [hpd, aliveInRoom_startPhaseTimer]
    simp [aliveInRoom, aliveIn]
  · exfalso
    have hpd : processDayVoting room = (checkWinConditions
        { room with game := some (
          { g with players := (dayVoteOutcome g).1,
                   lastAction := (dayVoteOutcome g).2,
                   votingResults := tallyVotes g.actions }) }).1 := by
      simp [processDayVoting, hg, ht]
    rw [hpd, hn] at hcont
    simp at hcont

theorem rolesBeforeShuffle_spec (n : Nat) (rs : RoleSettings)
    (h4 : 4 ≤ n) (h12 : n ≤ 12) :
    (rolesBeforeShuffle n rs).length = n ∧
    (rolesBeforeShuffle n rs).count Role.don = 1 ∧
    (rolesBeforeShuffle n rs).count Role.don
      + (rolesBeforeShuffle n rs).count Role.mafia = n / 3 ∧
    (rolesBeforeShuffle n rs).count Role.doctor
      = (if rs.doctor ∧ 5 ≤ n then 1 else 0) ∧
    (rolesBeforeShuffle n rs).count Role.lover1
      = (if rs.lovers ∧ 6 ≤ n then 1 else 0) ∧
    (rolesBeforeShuffle n rs).count Role.lover2
      = (if rs.lovers ∧ 6 ≤ n then 1 else 0) ∧
    (rolesBeforeShuffle n rs).count Role.citizen
      = n - n / 3 - (if rs.doctor ∧ 5 ≤ n then 1 else 0)
        - 2 * (if rs.lovers ∧ 6 ≤ n then 1 else 0) := by
  rcases rs with ⟨d, dn, lv⟩
  cases d <;> cases lv <;> cases dn <;> interval_cases n <;> decide

/-! ### Claim theorems -/

/-- Claim C2: for every playerCount in [4, 12] and every role
configuration, `distributeRoles` returns one role per player: exactly
one don; don plus ordinary mafia together number ⌊playerCount/3⌋ (so no
ordinary mafia when the quota is 1); exactly one doctor iff that option
is enabled and playerCount ≥ 5; the two lover roles iff that option is
enabled and playerCount ≥ 6; every remaining slot a citizen; and the
Fisher–Yates pass permutes the quota list, leaving the multiset
unchanged. -/
theorem claim_C2 (players : List String) (rs : RoleSettings) (rng : Nat → Nat)
    (h4 : 4 ≤ players.length) (h12 : players.length ≤ 12) :
    (distributeRoles players rs rng).length = players.length ∧
    (distributeRoles players rs rng).count Role.don = 1 ∧
    (distributeRoles players rs rng).count Role.don
      + (distributeRoles players rs rng).count Role.mafia
      = players.length / 3 ∧
    (distributeRoles players rs rng).count Role.doctor
      = (if rs.doctor ∧ 5 ≤ players.length then 1 else 0) ∧
    (distributeRoles players rs rng).count Role.lover1
      = (if rs.lovers ∧ 6 ≤ players.length then 1 else 0) ∧
    (distributeRoles players rs rng).count Role.lover2
      = (if rs.lovers ∧ 6 ≤ players.length then 1 else 0) ∧
    (distributeRoles players rs rng).count Role.citizen
      = players.length - players.length / 3
        - (if rs.doctor ∧ 5 ≤ players.length then 1 else 0)
        - 2 * (if rs.lovers ∧ 6 ≤ players.length then 1 else 0) ∧
    (distributeRoles players rs rng).Perm
      (rolesBeforeShuffle players.length rs) := by
  have hp := distributeRoles_perm players rs rng
  obtain ⟨hl, hdon, hmaf, hdoc, hl1, hl2, hcit⟩ :=
    rolesBeforeShuffle_spec players.length rs h4 h12
  refine ⟨?_, ?_, ?_, ?_, ?_, ?_, ?_, hp⟩
  · rw [hp.length_eq, hl]
  · rw [hp.count_eq, hdon]
  · rw [hp.count_eq, hp.count_eq, hmaf]
  · rw [hp.count_eq, hdoc]
  · rw [hp.count_eq, hl1]
  · rw [hp.count_eq, hl2]
  · rw [hp.count_eq, hcit]

/-- Witness for C2 at 7 players with every option enabled. -/
theorem claim_C2_witness :
    4 ≤ c2wPlayers.length ∧ c2wPlayers.length ≤ 12 ∧
    ((distributeRoles c2wPlayers c2wSettings id).length = c2wPlayers.length ∧
    (distributeRoles c2wPlayers c2wSettings id).count Role.don = 1 ∧
    (distributeRoles c2wPlayers c2wSettings id).count Role.don
      + (distributeRoles c2wPlayers c2wSettings id).count Role.mafia
      = c2wPlayers.length / 3 ∧
    (distributeRoles c2wPlayers c2wSettings id).count Role.doctor
      = (if c2wSettings.doctor ∧ 5 ≤ c2wPlayers.length then 1 else 0) ∧
    (distributeRoles c2wPlayers c2wSettings id).count Role.lover1
      = (if c2wSettings.lovers ∧ 6 ≤ c2wPlayers.length then 1 else 0) ∧
    (distributeRoles c2wPlayers c2wSettings id).count Role.lover2
      = (if c2wSettings.lovers ∧ 6 ≤ c2wPlayers.length then 1 else 0) ∧
    (distributeRoles c2wPlayers c2wSettings id).count Role.citizen
      = c2wPlayers.length - c2wPlayers.length / 3
        - (if c2wSettings.doctor ∧ 5 ≤ c2wPlayers.length then 1 else 0)
        - 2 * (if c2wSettings.lovers ∧ 6 ≤ c2wPlayers.length then 1 else 0) ∧
    (distributeRoles c2wPlayers c2wSettings id).Perm
      (rolesBeforeShuffle c2wPlayers.length c2wSettings)) :=
  ⟨by decide, by decide,
    claim_C2 c2wPlayers c2wSettings id (by decide) (by decide)⟩

/-- Claim C1, behavior at the failing input: the all-actions trigger
resolves night 1 at once (day 1, the night outcome line, a fresh day
interval 1) — but the night interval 0 is still armed; its later
expiry is not a no-op: ticking only the stale interval 0 resolves the
day phase (a second outcome line and a phase transition to night 2)
while the day's own interval 1 never fired. -/
theorem claim_C1_bug :
    (c1Mid.game.map (fun g => (g.phase, g.day, g.lastAction))
        = some (Phase.day, 1, some "P1 был убит ночью")) ∧
    c1Mid.timers = [0, 1] ∧
    (c1Final.game.map (fun g => (g.phase, g.day, g.lastAction))
        = some (Phase.night, 2, some "Никто не был исключён")) ∧
    c1Final.timers = [1, 2] := by decide

/-- Counterexample to claim C3 as stated: with one living mafia-type
and two living lovers the spec's partition rule (town-type = all
living non-mafia participants) gives 1 mafia against 2 town, so the
game should continue; the code counts only citizen/doctor as town (0)
and ends the game with a mafia win. -/
theorem claim_C3_counterexample :
    specPartitionWinner c3Game = none ∧
    (checkWinConditions c3Room).2 = true ∧
    (checkWinConditions c3Room).1.dbWinner = some "mafia" ∧
    (checkWinConditions c3Room).1.game = none ∧
    (checkWinConditions c3Room).1.status = "waiting" := by decide

/-- Claim C3 as amended: the win evaluation partitions by role name,
with the lover roles counting toward neither side — citizens win iff
the living mafia-type count is 0; mafia wins iff mafia-type remains
and the living citizen/doctor count is at most the mafia-type count;
otherwise, and only then, no winner is decided and the room state is
untouched; a decided winner detaches the game and reverts the room to
waiting. -/
theorem claim_C3_amended (room : RoomState) (g : Game)
    (hg : room.game = some g) : WinEvalSpec room g := by
  have hcw := checkWinConditions_eq room g hg
  unfold WinEvalSpec
  by_cases h1 : aliveMafiaCount g = 0
  · rw [hcw, if_pos h1, endGame_eq room g _ hg]
    refine ⟨?_, ?_, ?_, ?_, ?_⟩ <;> simp [h1]
  · by_cases h2 : aliveTownCount g ≤ aliveMafiaCount g
    · rw [hcw, if_neg h1, if_pos h2, endGame_eq room g _ hg]
      refine ⟨?_, ?_, ?_, ?_, ?_⟩ <;> simp [h1, h2]
    · rw [hcw, if_neg h1, if_neg h2]
      refine ⟨?_, ?_, ?_, ?_, ?_⟩ <;> simp [h1, h2]
      omega

/-- Witness for the amended C3 at a continuing game (one don, two
citizens). -/
theorem claim_C3_witness :
    c3wRoom.game = some c3wGame ∧ WinEvalSpec c3wRoom c3wGame :=
  ⟨rfl, claim_C3_amended c3wRoom c3wGame rfl⟩

/-- Claim C4: day resolution tallies the pending vote actions per
target; the eliminated participant is exactly the target holding the
strict running maximum of the tally — the first entry to reach the
overall maximum in tally order (every earlier entry is strictly
smaller, no later entry exceeds it) — and with no votes cast nobody is
eliminated. -/
theorem claim_C4 (room : RoomState) (g : Game) (hg : room.game = some g)
    (hcont : (processDayVoting room).game.isSome = true) :
    DayVoteSpec room g := by
  refine ⟨?_, ?_, ?_⟩
  · intro t ht
    have h := lookupNat_foldl_tallyStep g.actions [] t ht
    simpa [tallyVotes, lookupNat] using h
  · intro hnone
    have hpos := tallyVotes_pos g.actions
    rcases foldl_scanStep_spec (tallyVotes g.actions) (0, none) with
      ⟨heq, hle⟩ | ⟨l1, tc, l2, hsplit, hres, hlt2, h1, h2⟩
    · have hemp : tallyVotes g.actions = [] := by
        cases htl : tallyVotes g.actions with
        | nil => rfl
        | cons x xs =>
          have hx1 : 1 ≤ x.2 := hpos x (by rw [htl]; exact List.mem_cons_self x xs)
          have hx0 : x.2 ≤ 0 := hle x (by rw [htl]; exact List.mem_cons_self x xs)
          omega
      refine ⟨hemp, ?_⟩
      intro nick
      rw [processDayVoting_alive room g hg hcont nick]
      unfold dayVoteOutcome
      rw [hemp]
      simp [scanMax]
    · exfalso
      rw [scanMax, hres] at hnone
      simp at hnone
  · intro w hw
    rcases foldl_scanStep_spec (tallyVotes g.actions) (0, none) with
      ⟨heq, hle⟩ | ⟨l1, tc, l2, hsplit, hres, hlt2, h1, h2⟩
    · exfalso
      rw [scanMax, heq] at hw
      simp at hw
    · have hsm : scanMax (tallyVotes g.actions) = (tc.2, some tc.1) := by
        rw [scanMax, hres]
      have hw1 : tc.1 = w := by
        rw [hsm] at hw
        simpa using hw
      constructor
      · refine ⟨l1, l2, ?_, ?_, ?_⟩
        · rw [hsm, ← hw1]
          simpa using hsplit
        · intro x hx
          rw [hsm]
          exact h1 x hx
        · intro x hx
          rw [hsm]
          exact h2 x hx
      · intro nick
        rw [processDayVoting_alive room g hg hcont nick]
        unfold dayVoteOutcome
        have hpos0 : 0 < tc.2 := hlt2
        simp only [hsm, hw1]
        rw [if_pos hpos0]
        rcases hfp : findPlayer g.players w with _ | p
        · simp [hfp]
        · simp only [hfp]
          rw [aliveIn_markDead]
          simp [hfp]

/-- Witness for C4: four voters, three votes against P3, one against
A; P3 is eliminated and the game goes on. -/
theorem claim_C4_witness :
    c4Room.game = some c4Game ∧
    (processDayVoting c4Room).game.isSome = true ∧
    DayVoteSpec c4Room c4Game :=
  ⟨rfl, by decide, claim_C4 c4Room c4Game rfl (by decide)⟩

/-- Counterexample to claim C5 as stated: mafia A passes (t=1), mafia
B submits the first kill, against P1 (t=2), A resubmits a kill against
P2 (t=3), mafia C passes (t=4) completing the night.  The pending map
keeps A's entry in first position, so the code honors A's kill: P2
dies and P1 survives — while the earliest-submitted pending kill (by
timestamp) is B's, against P1. -/
theorem claim_C5_counterexample :
    aliveInRoom c5Final "P2" = some false ∧
    aliveInRoom c5Final "P1" = some true ∧
    specEarliestKillTarget c5AtResolution = some "P1" ∧
    roomActions (runTrace c5Room (c5Trace.take 3))
      = some [("A", { verb := "kill", target := some "P2", timestamp := 3 }),
              ("B", { verb := "kill", target := some "P1", timestamp := 2 })] ∧
    setAssoc [("A", ({ verb := "kill", target := some "P2", timestamp := 3 } : ActionRec)),
              ("B", { verb := "kill", target := some "P1", timestamp := 2 })] "C"
        { verb := "pass", target := none, timestamp := 4 }
      = c5AtResolution.actions := by decide

/-- Claim C5 as amended: exactly one kill is honored — the one held by
the first entry of the pending-actions map whose current action is a
kill by a mafia-type actor (the map keeps each actor at its
first-submission position, so with no resubmissions this is the
earliest-submitted kill); a heal on that same victim negates the kill
and nobody dies that night. -/
theorem claim_C5_amended (room : RoomState) (g : Game)
    (hg : room.game = some g)
    (hcont : (processNightActions room).game.isSome = true) :
    NightKillSpec room g := by
  constructor
  · intro hmk nick
    rw [processNightActions_alive room g hg hcont nick]
    unfold nightPlayersAfter nightVictim
    rw [hmk]
  · intro killer a rest hmk
    constructor
    · intro hheal nick
      rw [processNightActions_alive room g hg hcont nick]
      have hv : nightVictim g = none := by
        unfold nightVictim
        rw [hmk]
        simp [hheal]
      unfold nightPlayersAfter
      rw [hv]
    · intro hheal nick
      rw [processNightActions_alive room g hg hcont nick]
      rcases hfp : g.players.find? (fun p => a.target == some p.nickname) with _ | p
      · have hv : nightVictim g = none := by
          unfold nightVictim
          rw [hmk]
          simp [hheal, hfp]
        unfold nightPlayersAfter
        rw [hv]
        by_cases hc : a.target = some nick ∧ (findPlayer g.players nick).isSome = true
        · exfalso
          obtain ⟨hc1, hc2⟩ := hc
          rw [findPlayer, List.find?_isSome] at hc2
          obtain ⟨q, hq, hq2⟩ := hc2
          have hqt : (fun p => a.target == some p.nickname) q = true := by
            simp only [beq_iff_eq] at hq2 ⊢
            rw [hc1, hq2]
          exact (List.find?_eq_none.mp hfp q hq) hqt
        · rw [if_neg hc]
      · have hv : nightVictim g = some p.nickname := by
          unfold nightVictim
          rw [hmk]
          simp [hheal, hfp]
        have hpa : a.target = some p.nickname := by
          have h := List.find?_some hfp
          simpa using h
        have hmem : p ∈ g.players := List.mem_of_find?_eq_some hfp
        unfold nightPlayersAfter
        rw [hv]
        show aliveIn (markDead g.players p.nickname) nick = _
        rw [aliveIn_markDead]
        have hfps : (findPlayer g.players p.nickname).isSome = true := by
          rw [findPlayer, List.find?_isSome]
          exact ⟨p, hmem, by simp⟩
        by_cases hn : nick = p.nickname
        · rw [if_pos ⟨hn, hfps⟩, if_pos ⟨by rw [hpa, hn], by rw [hn]; exact hfps⟩]
        · rw [if_neg (fun hx => hn hx.1), if_neg ?_]
          intro hx
          apply hn
          have h2 := hx.1
          rw [hpa] at h2
          exact (Option.some_injective _ h2.symm)

/-- Witness for the amended C5 at the concrete pending map of the C5
scenario: A's first-position kill (target P2) is honored. -/
theorem claim_C5_witness :
    c5ResRoom.game = some c5AtResolution ∧
    (processNightActions c5ResRoom).game.isSome = true ∧
    NightKillSpec c5ResRoom c5AtResolution :=
  ⟨rfl, by decide, claim_C5_amended c5ResRoom c5AtResolution rfl (by decide)⟩

/-- Claim C6: a living participant's submission is stored under its
nickname, overwriting any pending action of the same actor — the map
then yields exactly the last submitted action of that actor, leaves
every other actor's pending action unchanged, and keeps at most one
entry per actor — and `handleAction` is exactly that store (plus the
log append) followed by the phase-completion check, which is what
resolution reads. -/
theorem claim_C6 (room : RoomState) (g : Game) (nick verb : String)
    (target : Option String) (ts : Nat) (p : Player)
    (hg : room.game = some g)
    (hfind : findPlayer g.players nick = some p)
    (halive : p.isAlive = true) :
    handleAction room nick verb target ts
      = checkPhaseCompletion { room with game := some (
          { g with
            actions := setAssoc g.actions nick
              { verb := verb, target := target, timestamp := ts },
            gameLog := g.gameLog ++
              [{ phase := g.phase, day := g.day, player := nick,
                 verb := verb, target := target }] }) } ∧
    lookupAssoc (setAssoc g.actions nick
        { verb := verb, target := target, timestamp := ts }) nick
      = some { verb := verb, target := target, timestamp := ts } ∧
    (∀ k, k ≠ nick →
      lookupAssoc (setAssoc g.actions nick
          { verb := verb, target := target, timestamp := ts }) k
        = lookupAssoc g.actions k) ∧
    ((g.actions.map Prod.fst).Nodup →
      ((setAssoc g.actions nick
          { verb := verb, target := target, timestamp := ts }).map
          Prod.fst).Nodup) := by
  refine ⟨?_, lookupAssoc_setAssoc_self _ _ _,
    fun k hk => lookupAssoc_setAssoc_ne _ _ _ _ hk,
    fun hn => setAssoc_nodupKeys _ _ _ hn⟩
  simp [handleAction, hg, hfind, halive]

/-- Witness for C6: mafia A submits a kill in the C5 scenario's fresh
night. -/
theorem claim_C6_witness :
    c5Room.game = some c5Game ∧
    findPlayer c5Game.players "A" = some (mkPlayer "A" Role.don) ∧
    (mkPlayer "A" Role.don).isAlive = true ∧
    (handleAction c5Room "A" "kill" (some "P1") 5
      = checkPhaseCompletion { c5Room with game := some (
          { c5Game with
            actions := setAssoc c5Game.actions "A"
              { verb := "kill", target := some "P1", timestamp := 5 },
            gameLog := c5Game.gameLog ++
              [{ phase := c5Game.phase, day := c5Game.day, player := "A",
                 verb := "kill", target := some "P1" }] }) } ∧
    lookupAssoc (setAssoc c5Game.actions "A"
        { verb := "kill", target := some "P1", timestamp := 5 }) "A"
      = some { verb := "kill", target := some "P1", timestamp := 5 } ∧
    (∀ k, k ≠ "A" →
      lookupAssoc (setAssoc c5Game.actions "A"
          { verb := "kill", target := some "P1", timestamp := 5 }) k
        = lookupAssoc c5Game.actions k) ∧
    ((c5Game.actions.map Prod.fst).Nodup →
      ((setAssoc c5Game.actions "A"
          { verb := "kill", target := some "P1", timestamp := 5 }).map
          Prod.fst).Nodup)) :=
  ⟨rfl, by decide, rfl,
    claim_C6 c5Room c5Game "A" "kill" (some "P1") 5 (mkPlayer "A" Role.don)
      rfl (by decide) rfl⟩

/-- Claim C7, behavior at the failing trace: identity A logs in from
connection 1, then from connection 2 — 1 is kicked and closed, as the
claim says — but when 1's transport-close event is then processed,
`handleDisconnect` deletes the nickname binding that meanwhile points
at 2; a third login from connection 3 therefore finds no existing
binding and kicks nobody, leaving connections 2 and 3 both live and
authenticated as A at once. -/
theorem claim_C7_bug :
    c7Mid.liveConns = [2] ∧
    (1, "kicked") ∈ c7Mid.outbox ∧
    c7Final.liveConns = [2, 3] ∧
    lookupAssoc c7Final.users 2
      = some { nickname := "A", avatar := "x", isAuthenticated := true,
               currentRoom := none } ∧
    lookupAssoc c7Final.users 3
      = some { nickname := "A", avatar := "x", isAuthenticated := true,
               currentRoom := none } ∧
    (2, "kicked") ∉ c7Final.outbox := by decide

/-- Claim C9: in an outgoing room snapshot, a roster entry carries a
role only when the snapshot is rendered for that same participant or
the room is finished; every other recipient sees the role as null. -/
theorem claim_C9 (room : HRoom) (recipient : Option String) (sp : SanPlayer)
    (hmem : sp ∈ (sanitizeRoomForClient room recipient).players) :
    (sp.role.isSome = true →
      recipient = some sp.nickname ∨ room.status = "finished") ∧
    (recipient ≠ some sp.nickname → room.status ≠ "finished" →
      sp.role = none) := by
  simp only [sanitizeRoomForClient] at hmem
  rw [List.mem_map] at hmem
  obtain ⟨p, hp, hsp⟩ := hmem
  have hrole_eq : sp.role
      = if (some p.nickname == recipient || room.status == "finished") = true
        then p.role else none := by rw [← hsp]
  have hnick : sp.nickname = p.nickname := by rw [← hsp]
  constructor
  · intro hrole
    rw [hrole_eq] at hrole
    by_cases hc : (some p.nickname == recipient || room.status == "finished") = true
    · rw [Bool.or_eq_true] at hc
      rcases hc with hc | hc
      · left
        rw [hnick]
        exact (beq_iff_eq.mp hc).symm
      · right
        exact beq_iff_eq.mp hc
    · rw [if_neg hc] at hrole
      simp at hrole
  · intro hne hnf
    rw [hnick] at hne
    have h1 : (some p.nickname == recipient) = false :=
      beq_eq_false_iff_ne.mpr (fun hx => hne hx.symm)
    have h2 : (room.status == "finished") = false := beq_eq_false_iff_ne.mpr hnf
    rw [hrole_eq, h1, h2]
    simp

/-- Witness for C9: alice's snapshot of the mid-game room shows bob's
role as null. -/
theorem claim_C9_witness :
    c9SanBob ∈ (sanitizeRoomForClient c9Room (some "alice")).players ∧
    ((c9SanBob.role.isSome = true →
       some "alice" = some c9SanBob.nickname ∨ c9Room.status = "finished") ∧
     (some "alice" ≠ some c9SanBob.nickname → c9Room.status ≠ "finished" →
       c9SanBob.role = none)) :=
  ⟨by decide, claim_C9 c9Room (some "alice") c9SanBob (by decide)⟩

/-- Claim C8: for an authenticated, room-less connection, `joinRoom`
fails with an error and leaves the handler state (rosters and room
bindings) unchanged when the room is unknown, the supplied secret does
not match the room's stored secret, the roster is full, or the room is
not waiting; on success it appends the participant, installs the
binding, and sends the roster update plus a system chat line to every
existing member. -/
theorem claim_C8 (st : HandlerState) (ws : Nat) (roomId : String)
    (password : Option String) (dbPassword : Option (Option String))
    (u : HUser) (hu : lookupAssoc st.users ws = some u)
    (hauth : u.isAuthenticated = true) (hnr : u.currentRoom = none) :
    JoinRoomSpec st ws roomId password dbPassword u := by
  unfold JoinRoomSpec
  refine ⟨?_, ?_, ?_, ?_, ?_⟩
  · intro hnf
    simp [joinRoom, hu, hauth, hnr, hnf]
  · intro room pw hroom hdb hpw hpwne hne
    have hrej : dbPasswordRejects dbPassword password = true := by
      rw [hdb, hpw]
      simp [dbPasswordRejects, hpwne, hne]
    simp [joinRoom, hu, hauth, hnr, hroom, hrej]
  · intro room hroom hrej hfull
    simp [joinRoom, hu, hauth, hnr, hroom, hrej, hfull]
  · intro room hroom hrej hlt hst
    have hnotfull : ¬(room.maxPlayers ≤ room.players.length) := by omega
    simp [joinRoom, hu, hauth, hnr, hroom, hrej, hnotfull, hst]
  · intro room hroom hrej hlt hst
    have hnotfull : ¬(room.maxPlayers ≤ room.players.length) := by omega
    have hj : joinRoom st ws roomId password dbPassword
        = ({ users := setAssoc st.users ws { u with currentRoom := some roomId },
             rooms := setAssoc st.rooms roomId
               { room with players := room.players ++ [joinNewPlayer u] } },
           JoinOutcome.joined,
           ((ws, OutMsg.roomJoined (sanitizeRoomForClient
               { room with players := room.players ++ [joinNewPlayer u] }
               (some u.nickname)))
             :: ((setAssoc st.users ws { u with currentRoom := some roomId }).filter
                   (fun wu => wu.2.currentRoom == some roomId)).map
                 (fun wu => (wu.1, OutMsg.roomUpdated (sanitizeRoomForClient
                   { room with players := room.players ++ [joinNewPlayer u] }
                   none))))
             ++ ((setAssoc st.users ws { u with currentRoom := some roomId }).filter
                   (fun wu => wu.2.currentRoom == some roomId)).map
                 (fun wu => (wu.1, OutMsg.chat "Система"
                   (u.nickname ++ " присоединился к комнате")))
             ++ ((setAssoc st.users ws { u with currentRoom := some roomId }).filter
                   (fun wu => wu.2.isAuthenticated && wu.2.currentRoom == none)).map
                 (fun wu => (wu.1, OutMsg.roomsList))) := by
      simp [joinRoom, hu, hauth, hnr, hroom, hrej, hnotfull, hst]
    refine ⟨?_, ?_, ?_, ?_⟩
    · rw [hj]
      exact lookupAssoc_setAssoc_self _ _ _
    · rw [hj]
      exact lookupAssoc_setAssoc_self _ _ _
    · rw [hj]
    · intro c v hcv hcw hcr
      have hmem1 : (c, v) ∈ setAssoc st.users ws { u with currentRoom := some roomId } :=
        mem_setAssoc_of_ne st.users ws _ c v hcw hcv
      have hmem2 : (c, v) ∈ (setAssoc st.users ws
          { u with currentRoom := some roomId }).filter
          (fun wu => wu.2.currentRoom == some roomId) :=
        List.mem_filter.mpr ⟨hmem1, by simp [hcr]⟩
      constructor
      · rw [hj]
        exact List.mem_append_left _ (List.mem_cons_of_mem _
          (List.mem_append_left _ (List.mem_map_of_mem _ hmem2)))
      · rw [hj]
        exact List.mem_append_left _ (List.mem_cons_of_mem _
          (List.mem_append_right _ (List.mem_map_of_mem _ hmem2)))

/-- Witness for C8: a successful join of room r1 by connection 1, with
connection 2 an existing member. -/
theorem claim_C8_witness :
    lookupAssoc c8State.users 1 = some c8User ∧
    c8User.isAuthenticated = true ∧
    c8User.currentRoom = none ∧
    JoinRoomSpec c8State 1 "r1" (some "pw") (some (some "pw")) c8User :=
  ⟨by decide, rfl, rfl,
    claim_C8 c8State 1 "r1" (some "pw") (some (some "pw")) c8User
      (by decide) rfl rfl⟩

/-- Claim C10: a `handleAction` call whose actor is missing from the
player list or not alive returns the room unchanged — no pending
action, no log entry, no phase change, no alive-flag change, and no
phase-completion check. -/
theorem claim_C10 (room : RoomState) (g : Game) (nick verb : String)
    (target : Option String) (ts : Nat) (hg : room.game = some g)
    (h : findPlayer g.players nick = none ∨
      ∃ p, findPlayer g.players nick = some p ∧ p.isAlive = false) :
    handleAction room nick verb target ts = room := by
  rcases h with h | ⟨p, hp, hal⟩
  · simp [handleAction, hg, h]
  · simp [handleAction, hg, hp, hal]

/-- Witness for C10: an unknown actor acts on the C1 room. -/
theorem claim_C10_witness :
    c1Room.game = some c1Game ∧
    (findPlayer c1Game.players "ghost" = none ∨
      ∃ p, findPlayer c1Game.players "ghost" = some p ∧ p.isAlive = false) ∧
    handleAction c1Room "ghost" "kill" (some "P1") 9 = c1Room :=
  ⟨rfl, Or.inl (by decide),
    claim_C10 c1Room c1Game "ghost" "kill" (some "P1") 9 rfl
      (Or.inl (by decide))⟩

end Mafia
